import Mathlib

/-!
SyncSphere chat gateway: a shallow embedding

This file embeds the connection/presence/protocol core of the SyncSphere
backend (the `ChatGateway` in `src/chat/chat.gateway.ts`, the
`PresenceService` in `src/chat/presence/presence.service.ts`, and the
message DTOs in `src/chat/chat.message.dto.ts`) as pure Lean functions
over an explicit database/state value, and proves properties of the
`send_message` pipeline, the presence accounting, and the DM
conversation-id classifier.

Conventions of the embedding:
* JavaScript strings are Lean `String`s (sequences of characters); the
  JS operations used by the source (`split('_')`, `<`, `length`,
  `toLowerCase`) are modelled explicitly below.
* Timestamps (`Date` values) are `Int` milliseconds since the epoch;
  `new Date(0)` is `0`.
* The Prisma store is a `Db` record of row lists; Prisma calls become
  pure list operations.  A throwing Prisma call (`update` on a missing
  row) is an `Except.error`.
* Socket emissions and push notifications are collected in an `Emit`
  list; `client.emit('err', ...)`, `server.to(room).emit('message', ...)`
  and the two cloud-messaging calls each become one constructor.
-/

set_option autoImplicit false

namespace SyncSphere

/-! ## JavaScript string primitives used by the gateway -/

/-- JS `String.prototype.split` with a one-character separator, on the
character list of the string.  `split` of the empty string is `[[]]`,
and adjacent separators produce empty parts, exactly as in JS. -/
def splitOnChar (sep : Char) : List Char → List (List Char)
  | [] => [[]]
  | c :: rest =>
    if c = sep then [] :: splitOnChar sep rest
    else
      match splitOnChar sep rest with
      | [] => [[]]
      | p :: ps => (c :: p) :: ps

/-- JS `<` on strings: lexicographic comparison, character by character. -/
def charListLt : List Char → List Char → Bool
  | [], [] => false
  | [], _ :: _ => true
  | _ :: _, [] => false
  | a :: as, b :: bs => if a < b then true else if b < a then false else charListLt as bs

/-- JS `s.split(sep)` for a one-character separator, as `String`s. -/
def jsSplit (sep : Char) (s : String) : List String :=
  (splitOnChar sep s.data).map fun l => ⟨l⟩

/-- JS `a < b` on strings. -/
def jsLt (a b : String) : Bool := charListLt a.data b.data

/-! ## The DM conversation-id classifier

`ChatGateway.isDMConversationId` (chat.gateway.ts:1194-1206): split on
`'_'`; require exactly two parts, both non-empty, in strictly ascending
order.  The source first early-returns on `parts.length !== 2` and then
destructures `[userId1, userId2]`; the single `match` below is the same
control flow. -/

def isDMConversationId (conversationId : String) : Bool :=
  match jsSplit '_' conversationId with
  | [userId1, userId2] =>
      userId1.length > 0 && userId2.length > 0 && jsLt userId1 userId2
  | _ => false

/-! ### Basic lemmas about the split -/

theorem splitOnChar_cons_sep (sep : Char) (rest : List Char) :
    splitOnChar sep (sep :: rest) = [] :: splitOnChar sep rest := by
  simp [splitOnChar]

theorem splitOnChar_cons_ne {sep c : Char} (hc : c ≠ sep) (rest : List Char)
    {p : List Char} {ps : List (List Char)}
    (h : splitOnChar sep rest = p :: ps) :
    splitOnChar sep (c :: rest) = (c :: p) :: ps := by
  simp only [splitOnChar, if_neg hc, h]

theorem splitOnChar_ne_nil (sep : Char) (l : List Char) : splitOnChar sep l ≠ [] := by
  cases l with
  | nil => simp [splitOnChar]
  | cons c rest =>
    by_cases hc : c = sep
    · subst hc; rw [splitOnChar_cons_sep]; simp
    · cases h : splitOnChar sep rest with
      | nil => simp [splitOnChar, if_neg hc, h]
      | cons p ps => rw [splitOnChar_cons_ne hc rest h]; simp

theorem splitOnChar_length (sep : Char) (l : List Char) :
    (splitOnChar sep l).length = l.count sep + 1 := by
  induction l with
  | nil => simp [splitOnChar]
  | cons c rest ih =>
    by_cases hc : c = sep
    · subst hc
      rw [splitOnChar_cons_sep]
      simp [List.count_cons, ih]
    · cases h : splitOnChar sep rest with
      | nil => exact absurd h (splitOnChar_ne_nil sep rest)
      | cons p ps =>
        rw [splitOnChar_cons_ne hc rest h]
        rw [h] at ih
        have hbeq : (c == sep) = false := by simp [hc]
        simp only [List.length_cons, List.count_cons, hbeq]
        simpa using ih

/-- Every part produced by the split is separator-free. -/
theorem splitOnChar_sep_not_mem (sep : Char) (l : List Char) :
    ∀ p ∈ splitOnChar sep l, sep ∉ p := by
  induction l with
  | nil => simp [splitOnChar]
  | cons c rest ih =>
    by_cases hc : c = sep
    · subst hc
      rw [splitOnChar_cons_sep]
      intro q hq
      rcases List.mem_cons.mp hq with rfl | hq
      · simp
      · exact ih q hq
    · cases h : splitOnChar sep rest with
      | nil => exact absurd h (splitOnChar_ne_nil sep rest)
      | cons p ps =>
        rw [splitOnChar_cons_ne hc rest h]
        rw [h] at ih
        intro q hq
        rcases List.mem_cons.mp hq with rfl | hq
        · intro hmem
          rcases List.mem_cons.mp hmem with heq | hmem
          · exact hc heq.symm
          · exact ih p (by simp) hmem
        · exact ih q (by simp [hq])

/-- Joining split parts with the separator. -/
def joinParts (sep : Char) : List (List Char) → List Char
  | [] => []
  | [p] => p
  | p :: q :: qs => p ++ sep :: joinParts sep (q :: qs)

theorem joinParts_pair (sep : Char) (p q : List Char) (qs : List (List Char)) :
    joinParts sep (p :: q :: qs) = p ++ sep :: joinParts sep (q :: qs) := rfl

theorem joinParts_splitOnChar (sep : Char) (l : List Char) :
    joinParts sep (splitOnChar sep l) = l := by
  induction l with
  | nil => simp [splitOnChar, joinParts]
  | cons c rest ih =>
    by_cases hc : c = sep
    · rw [hc, splitOnChar_cons_sep]
      cases h : splitOnChar sep rest with
      | nil => exact absurd h (splitOnChar_ne_nil sep rest)
      | cons p ps =>
        rw [h] at ih
        rw [joinParts_pair]
        simp [ih]
    · cases h : splitOnChar sep rest with
      | nil => exact absurd h (splitOnChar_ne_nil sep rest)
      | cons p ps =>
        rw [splitOnChar_cons_ne hc rest h]
        rw [h] at ih
        cases ps with
        | nil =>
          simp only [joinParts] at ih ⊢
          rw [ih]
        | cons q qs =>
          rw [joinParts_pair] at ih ⊢
          rw [List.cons_append, ih]

/-- Lists free of `sep` split to a single part. -/
theorem splitOnChar_eq_single (sep : Char) (b : List Char) (hb : sep ∉ b) :
    splitOnChar sep b = [b] := by
  induction b with
  | nil => simp [splitOnChar]
  | cons c rest ihb =>
    have hc : c ≠ sep := fun h => hb (by simp [h])
    have hrest : sep ∉ rest := fun h => hb (by simp [h])
    rw [splitOnChar_cons_ne hc rest (ihb hrest)]

/-- Splitting a list with exactly one separator occurrence, placed
between two separator-free halves, yields exactly those two parts. -/
theorem splitOnChar_two_parts (sep : Char) (a b : List Char)
    (ha : sep ∉ a) (hb : sep ∉ b) :
    splitOnChar sep (a ++ sep :: b) = [a, b] := by
  induction a with
  | nil =>
    rw [List.nil_append, splitOnChar_cons_sep, splitOnChar_eq_single sep b hb]
  | cons c cs ih =>
    have hc : c ≠ sep := fun h => ha (by simp [h])
    have hcs : sep ∉ cs := fun h => ha (by simp [h])
    rw [List.cons_append, splitOnChar_cons_ne hc _ (ih hcs)]

theorem charListLt_irrefl (l : List Char) : charListLt l l = false := by
  induction l with
  | nil => rfl
  | cons c cs ih => simp [charListLt, ih]

theorem charListLt_ne {a b : List Char} (h : charListLt a b = true) : a ≠ b := by
  intro heq
  subst heq
  rw [charListLt_irrefl] at h
  exact absurd h (by simp)

/-! ### Characterizing the classifier -/

theorem isDM_of_split_pair {s : String} {a b : List Char}
    (hsp : splitOnChar '_' s.data = [a, b]) :
    isDMConversationId s =
      ((⟨a⟩ : String).length > 0 && (⟨b⟩ : String).length > 0 && jsLt ⟨a⟩ ⟨b⟩) := by
  unfold isDMConversationId jsSplit
  rw [hsp]
  rfl

theorem isDM_eq_false_of_parts_ne_two (s : String)
    (h : (splitOnChar '_' s.data).length ≠ 2) : isDMConversationId s = false := by
  unfold isDMConversationId jsSplit
  cases hsp : splitOnChar '_' s.data with
  | nil => rfl
  | cons p ps =>
    cases ps with
    | nil => rfl
    | cons q qs =>
      cases qs with
      | nil => rw [hsp] at h; simp at h
      | cons r rs => rfl

theorem isDM_iff (s : String) :
    isDMConversationId s = true ↔
      ∃ a b : List Char, s.data = a ++ '_' :: b ∧ a ≠ [] ∧ b ≠ [] ∧
        '_' ∉ a ∧ '_' ∉ b ∧ charListLt a b = true := by
  constructor
  · intro h
    cases hsp : splitOnChar '_' s.data with
    | nil => exact absurd hsp (splitOnChar_ne_nil _ _)
    | cons p ps =>
      cases ps with
      | nil =>
        rw [isDM_eq_false_of_parts_ne_two s (by rw [hsp]; simp)] at h
        exact absurd h (by simp)
      | cons q qs =>
        cases qs with
        | nil =>
          rw [isDM_of_split_pair hsp] at h
          simp only [Bool.and_eq_true, decide_eq_true_eq] at h
          obtain ⟨⟨hp, hq⟩, hlt⟩ := h
          refine ⟨p, q, ?_, ?_, ?_, ?_, ?_, hlt⟩
          · have := joinParts_splitOnChar '_' s.data
            rw [hsp] at this
            rw [← this, joinParts_pair]
            rfl
          · intro hnil
            rw [hnil] at hp
            exact absurd hp (by simp [String.length])
          · intro hnil
            rw [hnil] at hq
            exact absurd hq (by simp [String.length])
          · exact splitOnChar_sep_not_mem '_' s.data p (by rw [hsp]; simp)
          · exact splitOnChar_sep_not_mem '_' s.data q (by rw [hsp]; simp)
        | cons r rs =>
          rw [isDM_eq_false_of_parts_ne_two s (by rw [hsp]; simp)] at h
          exact absurd h (by simp)
  · rintro ⟨a, b, hdata, ha, hb, hna, hnb, hlt⟩
    have hsp : splitOnChar '_' s.data = [a, b] := by
      rw [hdata]; exact splitOnChar_two_parts '_' a b hna hnb
    rw [isDM_of_split_pair hsp]
    have hal : (⟨a⟩ : String).length > 0 := by
      simpa [String.length, Nat.pos_iff_ne_zero] using ha
    have hbl : (⟨b⟩ : String).length > 0 := by
      simpa [String.length, Nat.pos_iff_ne_zero] using hb
    simp only [jsLt]
    simp only [String.length] at hal hbl
    simp [hal, hbl, hlt]

theorem count_join_pair (a b : List Char) (hna : '_' ∉ a) (hnb : '_' ∉ b) :
    (a ++ '_' :: b).count '_' = 1 := by
  rw [List.count_append, List.count_cons]
  have hca : a.count '_' = 0 := List.count_eq_zero.mpr hna
  have hcb : b.count '_' = 0 := List.count_eq_zero.mpr hnb
  simp [hca, hcb]

/-- A self-DM id `u ++ "_" ++ u` is never classified as a DM. -/
theorem isDM_self_false (u : String) : isDMConversationId (u ++ "_" ++ u) = false := by
  by_contra hne
  have h : isDMConversationId (u ++ "_" ++ u) = true := by
    cases hv : isDMConversationId (u ++ "_" ++ u) with
    | false => exact absurd hv hne
    | true => rfl
  obtain ⟨a, b, hdata, _, _, hna, hnb, hlt⟩ := (isDM_iff _).mp h
  have hud : (u ++ "_" ++ u).data = u.data ++ '_' :: u.data := by
    simp [String.data_append]
  have hdata' : u.data ++ '_' :: u.data = a ++ '_' :: b := by
    rw [← hud, hdata]
  -- the whole string holds exactly one '_', so u is '_'-free
  have hcount : (u.data ++ '_' :: u.data).count '_' = 1 := by
    rw [hdata']; exact count_join_pair a b hna hnb
  have hu : '_' ∉ u.data := by
    rw [List.count_append, List.count_cons] at hcount
    intro hmem
    have := List.count_pos_iff.mpr hmem
    omega
  -- split determinism forces a = u.data and b = u.data
  have h1 : splitOnChar '_' (u.data ++ '_' :: u.data) = [u.data, u.data] :=
    splitOnChar_two_parts '_' _ _ hu hu
  have h2 : splitOnChar '_' (u.data ++ '_' :: u.data) = [a, b] := by
    rw [hdata']; exact splitOnChar_two_parts '_' a b hna hnb
  rw [h1] at h2
  obtain ⟨hae, hbe⟩ : u.data = a ∧ u.data = b := by
    constructor <;> simp_all
  rw [← hae, ← hbe, charListLt_irrefl] at hlt
  exact absurd hlt (by simp)

/-- C10 (claim): a conversation id is DM-shaped iff it decomposes as two
non-empty, underscore-free components around a single underscore with
the first strictly smaller; a self-DM `u_u` is never a DM; an id with
more than one underscore is never a DM (always a group id). -/
theorem claim_C10_dm_id_classification :
    (∀ s : String, isDMConversationId s = true ↔
        ∃ a b : List Char, s.data = a ++ '_' :: b ∧ a ≠ [] ∧ b ≠ [] ∧
          '_' ∉ a ∧ '_' ∉ b ∧ charListLt a b = true)
    ∧ (∀ u : String, isDMConversationId (u ++ "_" ++ u) = false)
    ∧ (∀ s : String, 1 < s.data.count '_' → isDMConversationId s = false) := by
  refine ⟨isDM_iff, isDM_self_false, fun s h => ?_⟩
  apply isDM_eq_false_of_parts_ne_two
  rw [splitOnChar_length]
  omega

/-- C10 witness: the theorem applied at concrete ids. -/
theorem claim_C10_dm_id_classification_witness :
    isDMConversationId "amy_bob" = true
    ∧ isDMConversationId ("u" ++ "_" ++ "u") = false
    ∧ isDMConversationId "a_b_c" = false := by
  refine ⟨?_, claim_C10_dm_id_classification.2.1 "u",
    claim_C10_dm_id_classification.2.2 "a_b_c" (by decide)⟩
  exact (claim_C10_dm_id_classification.1 "amy_bob").mpr
    ⟨['a', 'm', 'y'], ['b', 'o', 'b'], by decide, by decide, by decide,
      by decide, by decide, by decide⟩

/-! ## Data model

Rows of the Prisma store used by the gateway, with only the columns the
gateway reads or writes.  `Db` is the store; each Prisma call in the
gateway becomes a pure list operation on it. -/

/-- Prisma `MessageAction` enum. -/
inductive MessageAction
  | INSERT
  | UPDATE
  | DELETE
deriving DecidableEq, Repr

/-- A row of the `Message` table (columns the gateway touches).
`content` and `metadata` are opaque JSON values, modelled as optional
strings (`none` = SQL NULL, written by Prisma's `JsonNull`). -/
structure StoredMessage where
  id : String
  timestamp : Int
  contentType : String
  content : Option String
  metadata : Option String
  message : Option String
  action : MessageAction
  senderId : String
  conversationId : String
  replyToId : Option String
  deletedAt : Option Int
deriving DecidableEq, Repr

/-- A row of the `Participant` table. -/
structure Participant where
  userId : String
  conversationId : String
  lastReadAt : Int
deriving DecidableEq, Repr

/-- A row of the `Conversation` table. -/
structure Conversation where
  id : String
  isGroup : Bool
deriving DecidableEq, Repr

/-- The store: user ids, conversations, participant rows, messages, and
the `Session` table's `(userId, fcmToken)` pairs with non-null tokens. -/
structure Db where
  users : List String
  conversations : List Conversation
  participants : List Participant
  messages : List StoredMessage
  fcmTokens : List (String × String)
deriving DecidableEq, Repr

/-- Embeds `prisma.conversation.findUnique` with a `where: id` clause. -/
def Db.findConversation (db : Db) (cid : String) : Option Conversation :=
  db.conversations.find? (fun c => c.id = cid)

/-- The `include: { participants: true }` rows of a conversation. -/
def Db.participantsOf (db : Db) (cid : String) : List Participant :=
  db.participants.filter (fun p => p.conversationId = cid)

/-- The incoming `send_message` envelope after `IncomingMessageSchema`
validation succeeded (all structural checks passed). -/
structure IncomingMessage where
  id : String
  conversationId : String
  senderId : String
  timestamp : Int
  contentType : String
  content : Option String
  metadata : Option String
  message : Option String
  replyToId : Option String
  action : MessageAction
deriving DecidableEq, Repr

/-- The row data accepted by `CreateMessageSchema`. -/
structure CreateMessage where
  id : String
  timestamp : Int
  contentType : String
  content : Option String
  metadata : Option String
  message : Option String
  action : MessageAction
  senderId : String
  conversationId : String
  replyToId : Option String
deriving DecidableEq, Repr

/-- Embeds `CreateMessageSchema.safeParse(parsedMesage.data)` on an envelope
that already passed `IncomingMessageSchema`: a field projection (the
gateway comments that it never fails on that input). -/
def createMessageOf (m : IncomingMessage) : CreateMessage :=
  { id := m.id
    timestamp := m.timestamp
    contentType := m.contentType
    content := m.content
    metadata := m.metadata
    message := m.message
    action := m.action
    senderId := m.senderId
    conversationId := m.conversationId
    replyToId := m.replyToId }

/-- Observable effects of a handler run: socket emissions and push
notifications, in emission order. -/
inductive Emit
  /-- Emission of `err` with a message and the original data back to the sender (the gateway's `client.emit`). -/
  | errToSender (message : String)
  /-- Emission of `message` to a user room (the gateway's `server.to(room).emit`). -/
  | messageTo (userId : String) (payload : IncomingMessage)
  /-- Push notification `cloudMessagingService.sendNotification` with title/body and the NEW_MESSAGE data payload. -/
  | notify (tokens : List String) (title body conversationId messageId : String)
  /-- Silent push `cloudMessagingService.sendSilentNotification` with the MESSAGE_DELETED data payload. -/
  | silentNotify (tokens : List String) (messageId conversationId : String)
deriving DecidableEq, Repr

/-- A throwing Prisma call (`update` on a missing row). -/
inductive PersistError
  | recordNotFound
deriving DecidableEq, Repr

/-! ## Notification helpers (chat.gateway.ts:1208-1274) -/

/-- Embeds `ChatGateway.getRecipientTokens`: the non-empty fcm tokens of the
sessions of the given users. -/
def getRecipientTokens (db : Db) (recipientIds : List String) : List String :=
  if recipientIds.isEmpty then []
  else
    ((db.fcmTokens.filter (fun s => recipientIds.contains s.1)).map Prod.snd).filter
      (fun t => t.length > 0)

/-- JS `s.toLowerCase()` (ASCII suffices for the content-type names). -/
def jsToLower (s : String) : String := s.toLower

/-- The notification body computed by `sendNewMessageNotification`:
the text for TEXT messages (JS `||` falls back on the empty string),
otherwise a content-type placeholder. -/
def notificationBody (message : CreateMessage) : String :=
  if message.contentType = "TEXT" then
    match message.message with
    | some t => if t.length > 0 then t else "Sent a message"
    | none => "Sent a message"
  else "Sent a " ++ jsToLower message.contentType

/-- Embeds `ChatGateway.sendNewMessageNotification`. -/
def sendNewMessageNotification (db : Db) (participants : List Participant)
    (senderId : String) (senderName : Option String) (message : CreateMessage) :
    List Emit :=
  let recipientIds := (participants.filter (fun p => p.userId ≠ senderId)).map
    (fun p => p.userId)
  let tokens := getRecipientTokens db recipientIds
  if tokens.isEmpty then []
  else
    [Emit.notify tokens (senderName.getD "New Message") (notificationBody message)
      message.conversationId message.id]

/-- Embeds `ChatGateway.sendDeletedMessageNotification` (the conversation's
participant rows are read from the store through the `include`). -/
def sendDeletedMessageNotification (db : Db) (conversationId senderId messageId : String) :
    List Emit :=
  let recipientIds := ((db.participantsOf conversationId).filter
    (fun p => p.userId ≠ senderId)).map (fun p => p.userId)
  let tokens := getRecipientTokens db recipientIds
  if tokens.isEmpty then []
  else [Emit.silentNotify tokens messageId conversationId]

/-! ## The INSERT/UPDATE/DELETE state machine
(`ChatGateway.handleMessageAction`, chat.gateway.ts:1110-1171) -/

/-- The row created by the INSERT upsert's `create` branch. -/
def rowOfCreate (dbMessage : CreateMessage) : StoredMessage :=
  { id := dbMessage.id
    timestamp := dbMessage.timestamp
    contentType := dbMessage.contentType
    content := dbMessage.content
    metadata := dbMessage.metadata
    message := dbMessage.message
    action := dbMessage.action
    senderId := dbMessage.senderId
    conversationId := dbMessage.conversationId
    replyToId := dbMessage.replyToId
    deletedAt := none }

/-- Embeds `ChatGateway.handleMessageAction`: INSERT is an upsert whose
`update` clause is `{}` (a no-op on duplicates); UPDATE rewrites
content/metadata/message and stamps `action = UPDATE`, throwing if the
row is missing; DELETE is a soft delete stamping `deletedAt = now` and
`action = DELETE`, throwing if the row is missing, then sending the
silent deletion notification. -/
def handleMessageAction (db : Db) (now : Int) (action : MessageAction)
    (incoming : IncomingMessage) (dbMessage : CreateMessage) :
    Except PersistError (Db × List Emit) :=
  match action with
  | MessageAction.INSERT =>
      if db.messages.any (fun m => m.id = incoming.id) then
        Except.ok (db, [])
      else
        Except.ok ({ db with messages := db.messages ++ [rowOfCreate dbMessage] }, [])
  | MessageAction.UPDATE =>
      if db.messages.any (fun m => m.id = incoming.id) then
        Except.ok
          ({ db with
              messages := db.messages.map fun m =>
                if m.id = incoming.id then
                  { m with
                      content := dbMessage.content
                      metadata := dbMessage.metadata
                      message := dbMessage.message
                      action := MessageAction.UPDATE }
                else m },
            [])
      else Except.error PersistError.recordNotFound
  | MessageAction.DELETE =>
      match db.messages.find? (fun m => m.id = incoming.id) with
      | none => Except.error PersistError.recordNotFound
      | some target =>
          let db' :=
            { db with
                messages := db.messages.map fun m =>
                  if m.id = incoming.id then
                    { m with deletedAt := some now, action := MessageAction.DELETE }
                  else m }
          Except.ok
            (db',
              sendDeletedMessageNotification db' target.conversationId target.senderId
                incoming.id)

/-! ## The `send_message` pipeline
(`ChatGateway.handleMessage`, chat.gateway.ts:745-911)

The model starts after `IncomingMessageSchema.safeParse` succeeded (a
structurally valid envelope); the impersonation check, the DM check,
conversation resolution with DM auto-creation, the membership check,
persistence, broadcast and notification are all modelled.  The final
`catch` block only logs, so a throwing persist step yields no
emissions at all. -/

/-- The authenticated session user (`session.user`). -/
structure SessionUser where
  id : String
  name : Option String
deriving DecidableEq, Repr

/-- Conversation lookup with DM auto-creation
(chat.gateway.ts:801-856): find the conversation; when absent and the
id is DM-shaped, verify both referenced users exist
(`prisma.user.count({ id: { in: [userId1, userId2] } })`), then create
the conversation with `isGroup: false` and two participant rows with
`lastReadAt: new Date(0)`; errors are the `err` payloads the gateway
emits before returning. -/
def resolveConversation (db : Db) (conversationId : String) (isDM : Bool) :
    Except (List Emit) (Db × List Participant) :=
  match db.findConversation conversationId with
  | some _ => Except.ok (db, db.participantsOf conversationId)
  | none =>
    if isDM then
      match jsSplit '_' conversationId with
      | [userId1, userId2] =>
          let usersExist :=
            (db.users.filter (fun u => u = userId1 || u = userId2)).length
          if usersExist ≠ 2 then
            Except.error [Emit.errToSender "One or both users do not exist"]
          else
            let newParts : List Participant :=
              [⟨userId1, conversationId, 0⟩, ⟨userId2, conversationId, 0⟩]
            Except.ok
              ({ db with
                  conversations := db.conversations ++ [⟨conversationId, false⟩],
                  participants := db.participants ++ newParts },
                newParts)
      | _ => Except.error [Emit.errToSender "Conversation not found"]
    else Except.error [Emit.errToSender "Conversation not found"]

/-- Embeds `ChatGateway.handleMessage`.  Returns the store after the run and
the emissions, in order. -/
def handleMessage (db : Db) (now : Int) (user : SessionUser)
    (payload : IncomingMessage) : Db × List Emit :=
  if user.id ≠ payload.senderId then
    (db, [Emit.errToSender "Please user the senderID of the logged in User"])
  else
    let conversationId := payload.conversationId
    let senderId := payload.senderId
    let isDM := isDMConversationId conversationId
    if isDM && !((jsSplit '_' conversationId).contains senderId) then
      (db, [Emit.errToSender "Invalid DM conversation: sender is not a participant"])
    else
      match resolveConversation db conversationId isDM with
      | Except.error es => (db, es)
      | Except.ok (db1, participants) =>
        if !(participants.any (fun p => p.userId = payload.senderId)) then
          (db1, [Emit.errToSender "User is not a member of the group"])
        else
          let dbMessage := createMessageOf payload
          match handleMessageAction db1 now payload.action payload dbMessage with
          | Except.error _ =>
              -- the catch block (chat.gateway.ts:907-910) only logs
              (db1, [])
          | Except.ok (db2, actionEmits) =>
              let broadcasts := participants.map fun p =>
                Emit.messageTo p.userId payload
              (db2,
                actionEmits ++ broadcasts ++
                  sendNewMessageNotification db2 participants user.id user.name
                    dbMessage)

/-! ## The group-deleted lifecycle handler -/

/-- The `group.deleted` event payload
(`GroupDeletedEvent`, src/chat/events/chat.events.ts): the emitter is
supposed to capture the member list in `memberIds` before the cascade
delete. -/
structure GroupDeletedEvent where
  groupId : String
  groupName : String
  userId : String
  memberIds : List String
deriving DecidableEq, Repr

/-- Embeds `ChatGateway.handleGroupDeleted` (chat.gateway.ts:1452-1474): the
body only writes two log lines ("Real-time notification not fully
implemented without member list") and performs no broadcast, no
persistence and no notification, so its observable effect is the empty
emission list. -/
def handleGroupDeleted (_payload : GroupDeletedEvent) : List Emit := []

/-! ## Presence store
(`PresenceService`, src/chat/presence/presence.service.ts)

Redis per-user sets `presence:<userId>` become an association list from
user id to the list of its socket ids (set semantics: `sadd` is a
no-op on a present member).  The refreshing TTL is a safety net with
no functional role and is not modelled. -/

structure PresenceStore where
  sets : List (String × List String)
deriving DecidableEq, Repr

/-- Redis `SCARD presence:<userId>` (0 for a missing key). -/
def PresenceStore.card (st : PresenceStore) (userId : String) : Nat :=
  match st.sets.find? (fun kv => kv.1 = userId) with
  | some kv => kv.2.length
  | none => 0

/-- Redis `SADD presence:<userId> socketId`. -/
def PresenceStore.sadd (st : PresenceStore) (userId member : String) : PresenceStore :=
  if st.sets.any (fun kv => kv.1 = userId) then
    ⟨st.sets.map fun kv =>
      if kv.1 = userId then
        (kv.1, if kv.2.contains member then kv.2 else kv.2 ++ [member])
      else kv⟩
  else ⟨st.sets ++ [(userId, [member])]⟩

/-- Redis `SREM presence:<userId> socketId`. -/
def PresenceStore.srem (st : PresenceStore) (userId member : String) : PresenceStore :=
  ⟨st.sets.map fun kv =>
    if kv.1 = userId then (kv.1, kv.2.filter (fun m => m ≠ member)) else kv⟩

/-- Redis `DEL presence:<userId>`. -/
def PresenceStore.del (st : PresenceStore) (userId : String) : PresenceStore :=
  ⟨st.sets.filter (fun kv => kv.1 ≠ userId)⟩

/-- Embeds `PresenceService.addConnection` (the TTL refresh has no modelled
effect). -/
def addConnection (st : PresenceStore) (userId socketId : String) : PresenceStore :=
  st.sadd userId socketId

/-- Embeds `PresenceService.removeConnection`: remove the socket, read the
remaining cardinality, delete the key and report fully-offline when it
reached zero. -/
def removeConnection (st : PresenceStore) (userId socketId : String) :
    PresenceStore × Bool :=
  let st1 := st.srem userId socketId
  let remainingSessions := st1.card userId
  if remainingSessions = 0 then (st1.del userId, true)
  else (st1, false)

/-! ## Helper lemmas -/

theorem map_fix {α : Type} (l : List α) (f : α → α) (h : ∀ a ∈ l, f a = a) :
    l.map f = l := by
  induction l with
  | nil => rfl
  | cons x xs ih =>
    rw [List.map_cons, h x (by simp), ih (fun a ha => h a (by simp [ha]))]

/-! ## C1: INSERT idempotence -/

/-- C1: an INSERT whose message id already exists in the store is a
no-op success (the store is returned unchanged, with no error and no
extra emission); consequently sending the same INSERT envelope twice
leaves exactly the store produced by the first send, which for a fresh
id holds exactly one row with the first envelope's content. -/
theorem claim_C1_insert_idempotent :
    (∀ (db : Db) (now : Int) (incoming : IncomingMessage) (dbMessage : CreateMessage),
        db.messages.any (fun m => m.id = incoming.id) = true →
        handleMessageAction db now MessageAction.INSERT incoming dbMessage =
          Except.ok (db, []))
    ∧ (∀ (db : Db) (now now2 : Int) (incoming incoming2 : IncomingMessage)
        (dbMessage dbMessage2 : CreateMessage) (db1 : Db) (es1 : List Emit),
        incoming2.id = incoming.id →
        dbMessage.id = incoming.id →
        handleMessageAction db now MessageAction.INSERT incoming dbMessage =
          Except.ok (db1, es1) →
        handleMessageAction db1 now2 MessageAction.INSERT incoming2 dbMessage2 =
          Except.ok (db1, []))
    ∧ (∀ (db : Db) (now : Int) (incoming : IncomingMessage) (dbMessage : CreateMessage),
        db.messages.any (fun m => m.id = incoming.id) = false →
        dbMessage.id = incoming.id →
        ∃ db1,
          handleMessageAction db now MessageAction.INSERT incoming dbMessage =
              Except.ok (db1, [])
            ∧ db1.messages.filter (fun m => m.id = incoming.id) =
                [rowOfCreate dbMessage]) := by
  refine ⟨fun db now incoming dbMessage h => ?_,
    fun db now now2 incoming incoming2 dbMessage dbMessage2 db1 es1 hid2 hid hfirst => ?_,
    fun db now incoming dbMessage h hid => ?_⟩
  · simp only [handleMessageAction, h, if_pos]
  · by_cases hex : db.messages.any (fun m => m.id = incoming.id) = true
    · simp only [handleMessageAction, hex, if_pos] at hfirst
      obtain ⟨hdb, -⟩ := Prod.mk.inj (Except.ok.inj hfirst)
      subst hdb
      have hex2 : db.messages.any (fun m => m.id = incoming2.id) = true := by
        rw [hid2]; exact hex
      simp only [handleMessageAction, hex2, if_pos]
    · have hex' : db.messages.any (fun m => m.id = incoming.id) = false := by
        simpa using hex
      simp only [handleMessageAction, hex', Bool.false_eq_true, if_neg,
        not_false_eq_true] at hfirst
      obtain ⟨hdb, -⟩ := Prod.mk.inj (Except.ok.inj hfirst)
      have hex2 : db1.messages.any (fun m => m.id = incoming2.id) = true := by
        rw [← hdb]
        simp only [List.any_append]
        have hrow : (rowOfCreate dbMessage).id = incoming2.id := by
          simp [rowOfCreate, hid, hid2]
        simp [hrow]
      simp only [handleMessageAction, hex2, if_pos]
  · refine ⟨{ db with messages := db.messages ++ [rowOfCreate dbMessage] }, ?_, ?_⟩
    · simp only [handleMessageAction, h, Bool.false_eq_true, if_neg,
        not_false_eq_true]
    · rw [List.filter_append]
      have h1 : db.messages.filter (fun m => m.id = incoming.id) = [] := by
        rw [List.filter_eq_nil_iff]
        intro x hx
        simp only [decide_eq_true_eq]
        intro hxid
        have hait : db.messages.any (fun m => m.id = incoming.id) = true :=
          List.any_eq_true.mpr ⟨x, hx, by simp [hxid]⟩
        rw [hait] at h
        exact absurd h (by simp)
      have h2 : (rowOfCreate dbMessage).id = incoming.id := by simp [rowOfCreate, hid]
      simp [h1, h2]

/-- C1 witness: a concrete store where the id `m1` already exists; the
re-sent INSERT is a no-op, and the double-send leaves one row. -/
theorem claim_C1_insert_idempotent_witness :
    handleMessageAction
        ⟨["amy", "bob"], [⟨"amy_bob", false⟩], [⟨"amy", "amy_bob", 0⟩, ⟨"bob", "amy_bob", 0⟩],
          [⟨"m1", 7, "TEXT", some "c0", none, some "hello", MessageAction.INSERT,
            "amy", "amy_bob", none, none⟩], []⟩
        9 MessageAction.INSERT
        ⟨"m1", "amy_bob", "amy", 9, "TEXT", some "c9", none, some "again", none,
          MessageAction.INSERT⟩
        ⟨"m1", 9, "TEXT", some "c9", none, some "again", MessageAction.INSERT, "amy",
          "amy_bob", none⟩ =
      Except.ok
        (⟨["amy", "bob"], [⟨"amy_bob", false⟩], [⟨"amy", "amy_bob", 0⟩, ⟨"bob", "amy_bob", 0⟩],
          [⟨"m1", 7, "TEXT", some "c0", none, some "hello", MessageAction.INSERT,
            "amy", "amy_bob", none, none⟩], []⟩, []) := by
  exact claim_C1_insert_idempotent.1 _ 9 _ _ (by decide)

/-! ## C9: DELETE is soft -/

/-- C9: a DELETE of an existing message id succeeds and leaves the row
in the store with `deletedAt = now` and `action = DELETE` while every
other field of the row is unchanged (`{ m with ... }` keeps them); no
row is removed (the length is preserved) and rows with other ids are
untouched, as are the other tables. -/
theorem claim_C9_delete_is_soft (db : Db) (now : Int) (incoming : IncomingMessage)
    (dbMessage : CreateMessage) (m : StoredMessage)
    (hm : m ∈ db.messages) (hid : m.id = incoming.id) :
    ∃ db' es,
      handleMessageAction db now MessageAction.DELETE incoming dbMessage =
          Except.ok (db', es)
        ∧ db'.messages.length = db.messages.length
        ∧ { m with deletedAt := some now, action := MessageAction.DELETE } ∈ db'.messages
        ∧ (∀ x ∈ db.messages, x.id ≠ incoming.id → x ∈ db'.messages)
        ∧ db'.conversations = db.conversations
        ∧ db'.participants = db.participants
        ∧ db'.users = db.users := by
  have hsome : (db.messages.find? (fun x => x.id = incoming.id)).isSome := by
    rw [List.find?_isSome]
    exact ⟨m, hm, by simp [hid]⟩
  obtain ⟨target, htarget⟩ := Option.isSome_iff_exists.mp hsome
  refine ⟨{ db with
      messages := db.messages.map fun x =>
        if x.id = incoming.id then
          { x with deletedAt := some now, action := MessageAction.DELETE }
        else x },
    sendDeletedMessageNotification
      { db with
        messages := db.messages.map fun x =>
          if x.id = incoming.id then
            { x with deletedAt := some now, action := MessageAction.DELETE }
          else x }
      target.conversationId target.senderId incoming.id,
    ?_, ?_, ?_, ?_, rfl, rfl, rfl⟩
  · simp only [handleMessageAction, htarget]
  · simp
  · exact List.mem_map.mpr ⟨m, hm, by simp [hid]⟩
  · intro x hx hxid
    exact List.mem_map.mpr ⟨x, hx, by simp [hxid]⟩

/-- C9 witness: deleting the concrete message `m1` keeps the row with
its content and stamps `deletedAt`. -/
theorem claim_C9_delete_is_soft_witness :
    ∃ db' es,
      handleMessageAction
          ⟨["amy", "bob"], [⟨"amy_bob", false⟩],
            [⟨"amy", "amy_bob", 0⟩, ⟨"bob", "amy_bob", 0⟩],
            [⟨"m1", 7, "TEXT", some "c0", none, some "hello", MessageAction.INSERT,
              "amy", "amy_bob", none, none⟩], []⟩
          11 MessageAction.DELETE
          ⟨"m1", "amy_bob", "amy", 11, "TEXT", none, none, none, none,
            MessageAction.DELETE⟩
          ⟨"m1", 11, "TEXT", none, none, none, MessageAction.DELETE, "amy",
            "amy_bob", none⟩ =
        Except.ok (db', es)
      ∧ (⟨"m1", 7, "TEXT", some "c0", none, some "hello", MessageAction.DELETE,
          "amy", "amy_bob", none, some 11⟩ : StoredMessage) ∈ db'.messages := by
  obtain ⟨db', es, heq, _, hmem, _⟩ :=
    claim_C9_delete_is_soft
      ⟨["amy", "bob"], [⟨"amy_bob", false⟩],
        [⟨"amy", "amy_bob", 0⟩, ⟨"bob", "amy_bob", 0⟩],
        [⟨"m1", 7, "TEXT", some "c0", none, some "hello", MessageAction.INSERT,
          "amy", "amy_bob", none, none⟩], []⟩
      11
      ⟨"m1", "amy_bob", "amy", 11, "TEXT", none, none, none, none,
        MessageAction.DELETE⟩
      ⟨"m1", 11, "TEXT", none, none, none, MessageAction.DELETE, "amy",
        "amy_bob", none⟩
      ⟨"m1", 7, "TEXT", some "c0", none, some "hello", MessageAction.INSERT,
        "amy", "amy_bob", none, none⟩
      (by simp) (by simp)
  exact ⟨db', es, heq, hmem⟩

/-! ## C6: group-deleted handling -/

/-- C6: evaluating `handleGroupDeleted` at a deletion event whose
payload carries the captured member list shows that the handler emits
nothing at all — no member receives a "conversation gone" signal,
contradicting the claim (the source only logs a warning). -/
theorem claim_C6_group_deleted_emits_nothing :
    handleGroupDeleted ⟨"g1", "Group One", "amy", ["amy", "bob"]⟩ = [] := rfl

/-! ## C4: presence fully-offline transition -/

theorem card_del (st : PresenceStore) (u : String) : (st.del u).card u = 0 := by
  unfold PresenceStore.card PresenceStore.del
  rw [List.find?_eq_none.mpr]
  intro x hx
  have hne := (List.mem_filter.mp hx).2
  simpa using hne

theorem find?_append_last {sets : List (String × List String)} {u : String}
    (l : List String) (hAll : ∀ kv ∈ sets, kv.1 ≠ u) :
    (sets ++ [(u, l)]).find? (fun kv => kv.1 = u) = some (u, l) := by
  rw [List.find?_append, List.find?_eq_none.mpr (fun x hx => by simpa using hAll x hx)]
  simp

theorem card_append_last {sets : List (String × List String)} {u : String}
    (l : List String) (hAll : ∀ kv ∈ sets, kv.1 ≠ u) :
    PresenceStore.card ⟨sets ++ [(u, l)]⟩ u = l.length := by
  unfold PresenceStore.card
  rw [find?_append_last l hAll]

theorem sadd_fresh {sets : List (String × List String)} {u : String}
    (c : String) (hAll : ∀ kv ∈ sets, kv.1 ≠ u) :
    PresenceStore.sadd ⟨sets⟩ u c = ⟨sets ++ [(u, [c])]⟩ := by
  unfold PresenceStore.sadd
  rw [if_neg]
  simp only [List.any_eq_true, not_exists, not_and]
  intro kv hkv
  simpa using hAll kv hkv

theorem sadd_append_last {sets : List (String × List String)} {u : String}
    (c : String) (l : List String) (hAll : ∀ kv ∈ sets, kv.1 ≠ u) :
    PresenceStore.sadd ⟨sets ++ [(u, l)]⟩ u c =
      ⟨sets ++ [(u, if l.contains c then l else l ++ [c])]⟩ := by
  unfold PresenceStore.sadd
  rw [if_pos (by simp)]
  congr 1
  rw [List.map_append, map_fix sets _ (fun kv hkv => by simp [hAll kv hkv])]
  simp

theorem srem_append_last {sets : List (String × List String)} {u : String}
    (c : String) (l : List String) (hAll : ∀ kv ∈ sets, kv.1 ≠ u) :
    PresenceStore.srem ⟨sets ++ [(u, l)]⟩ u c =
      ⟨sets ++ [(u, l.filter (fun m => m ≠ c))]⟩ := by
  unfold PresenceStore.srem
  congr 1
  rw [List.map_append, map_fix sets _ (fun kv hkv => by simp [hAll kv hkv])]
  simp

/-- C4: `removeConnection` reports fully-offline exactly when the
user's connection set is empty after the removal; in the two-device
scenario (two distinct connections added from a state where the user
has none), removing the first connection reports `false` and removing
the second reports `true`. -/
theorem claim_C4_presence_fully_offline :
    (∀ (st : PresenceStore) (u c : String),
        (removeConnection st u c).2 = true ↔ (removeConnection st u c).1.card u = 0)
    ∧ (∀ (st : PresenceStore) (u c1 c2 : String), c1 ≠ c2 →
        (∀ kv ∈ st.sets, kv.1 ≠ u) →
        (removeConnection (addConnection (addConnection st u c1) u c2) u c1).2 = false
        ∧ (removeConnection
            (removeConnection (addConnection (addConnection st u c1) u c2) u c1).1
            u c2).2 = true) := by
  constructor
  · intro st u c
    by_cases h : ((st.srem u c).card u) = 0
    · simp [removeConnection, h, card_del]
    · simp [removeConnection, h]
  · intro st u c1 c2 hne hAll
    obtain ⟨sets⟩ := st
    replace hAll : ∀ kv ∈ sets, kv.1 ≠ u := hAll
    have hc21 : c2 ≠ c1 := fun h => hne h.symm
    have h1 : addConnection ⟨sets⟩ u c1 = ⟨sets ++ [(u, [c1])]⟩ :=
      sadd_fresh c1 hAll
    have hcont : ([c1].contains c2) = false := by
      simp [hc21]
    have h2 : addConnection ⟨sets ++ [(u, [c1])]⟩ u c2 = ⟨sets ++ [(u, [c1, c2])]⟩ := by
      show PresenceStore.sadd _ u c2 = _
      rw [sadd_append_last c2 [c1] hAll]
      simp [hcont, hc21]
    have hfil1 : [c1, c2].filter (fun m => m ≠ c1) = [c2] := by
      simp [hc21]
    have h3 : removeConnection ⟨sets ++ [(u, [c1, c2])]⟩ u c1 =
        (⟨sets ++ [(u, [c2])]⟩, false) := by
      simp only [removeConnection, srem_append_last c1 [c1, c2] hAll, hfil1,
        card_append_last [c2] hAll]
      simp
    have hfil2 : [c2].filter (fun m => m ≠ c2) = ([] : List String) := by
      simp
    have h4 : (removeConnection ⟨sets ++ [(u, [c2])]⟩ u c2).2 = true := by
      simp only [removeConnection, srem_append_last c2 [c2] hAll, hfil2,
        card_append_last [] hAll]
      simp
    rw [h1, h2, h3]
    exact ⟨rfl, h4⟩

/-- C4 witness: the concrete two-device scenario starting from the
empty presence store. -/
theorem claim_C4_presence_fully_offline_witness :
    (removeConnection (addConnection (addConnection ⟨[]⟩ "u" "a") "u" "b") "u" "a").2 = false
    ∧ (removeConnection
        (removeConnection (addConnection (addConnection ⟨[]⟩ "u" "a") "u" "b") "u" "a").1
        "u" "b").2 = true :=
  claim_C4_presence_fully_offline.2 ⟨[]⟩ "u" "a" "b" (by decide) (by simp)

/-! ## Evaluation lemmas for the `send_message` pipeline -/

theorem resolveConversation_found {db : Db} {cid : String} {isDM : Bool}
    {conv : Conversation} (h : db.findConversation cid = some conv) :
    resolveConversation db cid isDM = Except.ok (db, db.participantsOf cid) := by
  simp [resolveConversation, h]

theorem resolveConversation_absent_group {db : Db} {cid : String}
    (h : db.findConversation cid = none) :
    resolveConversation db cid false =
      Except.error [Emit.errToSender "Conversation not found"] := by
  simp [resolveConversation, h]

theorem resolveConversation_absent_dm_missing_user {db : Db} {cid : String}
    {u1 u2 : String} (h : db.findConversation cid = none)
    (hsplit : jsSplit '_' cid = [u1, u2])
    (hcount : (db.users.filter (fun u => u = u1 || u = u2)).length ≠ 2) :
    resolveConversation db cid true =
      Except.error [Emit.errToSender "One or both users do not exist"] := by
  simp only [resolveConversation, h, hsplit]
  rw [if_pos hcount]
  simp

theorem resolveConversation_absent_dm_create {db : Db} {cid : String}
    {u1 u2 : String} (h : db.findConversation cid = none)
    (hsplit : jsSplit '_' cid = [u1, u2])
    (hcount : (db.users.filter (fun u => u = u1 || u = u2)).length = 2) :
    resolveConversation db cid true =
      Except.ok
        ({ db with
            conversations := db.conversations ++ [⟨cid, false⟩],
            participants := db.participants ++ [⟨u1, cid, 0⟩, ⟨u2, cid, 0⟩] },
          [⟨u1, cid, 0⟩, ⟨u2, cid, 0⟩]) := by
  have hnot : ¬((db.users.filter (fun u => u = u1 || u = u2)).length ≠ 2) :=
    fun hne => hne hcount
  simp only [resolveConversation, h, hsplit]
  rw [if_neg hnot]
  simp

theorem resolveConversation_absent_dm_badsplit {db : Db} {cid : String}
    (h : db.findConversation cid = none) {parts : List String}
    (hsp : jsSplit '_' cid = parts)
    (hshape : ∀ u1 u2 : String, parts ≠ [u1, u2]) :
    resolveConversation db cid true =
      Except.error [Emit.errToSender "Conversation not found"] := by
  cases parts with
  | nil => simp [resolveConversation, h, hsp]
  | cons p ps =>
    cases ps with
    | nil => simp [resolveConversation, h, hsp]
    | cons q qs =>
      cases qs with
      | nil => exact absurd rfl (hshape p q)
      | cons r rs => simp [resolveConversation, h, hsp]

/-- Every resolver error is a single `err` emission. -/
theorem resolveConversation_error_shape {db : Db} {cid : String} {isDM : Bool}
    {es : List Emit} (h : resolveConversation db cid isDM = Except.error es) :
    ∃ msg, es = [Emit.errToSender msg] := by
  cases hf : db.findConversation cid with
  | some conv =>
    rw [resolveConversation_found hf] at h
    exact absurd h (by simp)
  | none =>
    cases isDM with
    | false =>
      rw [resolveConversation_absent_group hf] at h
      exact ⟨"Conversation not found", (Except.error.inj h).symm⟩
    | true =>
      cases hsp : jsSplit '_' cid with
      | nil =>
        rw [resolveConversation_absent_dm_badsplit hf hsp (by simp)] at h
        exact ⟨"Conversation not found", (Except.error.inj h).symm⟩
      | cons p ps =>
        cases ps with
        | nil =>
          rw [resolveConversation_absent_dm_badsplit hf hsp (by simp)] at h
          exact ⟨"Conversation not found", (Except.error.inj h).symm⟩
        | cons q qs =>
          cases qs with
          | nil =>
            by_cases hc : (db.users.filter (fun u => u = p || u = q)).length = 2
            · rw [resolveConversation_absent_dm_create hf hsp hc] at h
              exact absurd h (by simp)
            · rw [resolveConversation_absent_dm_missing_user hf hsp hc] at h
              exact ⟨"One or both users do not exist", (Except.error.inj h).symm⟩
          | cons r rs =>
            rw [resolveConversation_absent_dm_badsplit hf hsp (by simp)] at h
            exact ⟨"Conversation not found", (Except.error.inj h).symm⟩

/-- Resolution never touches the message table. -/
theorem resolveConversation_messages {db db1 : Db} {cid : String} {isDM : Bool}
    {participants : List Participant}
    (h : resolveConversation db cid isDM = Except.ok (db1, participants)) :
    db1.messages = db.messages := by
  cases hf : db.findConversation cid with
  | some conv =>
    rw [resolveConversation_found hf] at h
    obtain ⟨hdb, -⟩ := Prod.mk.inj (Except.ok.inj h)
    rw [← hdb]
  | none =>
    cases isDM with
    | false =>
      rw [resolveConversation_absent_group hf] at h
      exact absurd h (by simp)
    | true =>
      cases hsp : jsSplit '_' cid with
      | nil =>
        rw [resolveConversation_absent_dm_badsplit hf hsp (by simp)] at h
        exact absurd h (by simp)
      | cons p ps =>
        cases ps with
        | nil =>
          rw [resolveConversation_absent_dm_badsplit hf hsp (by simp)] at h
          exact absurd h (by simp)
        | cons q qs =>
          cases qs with
          | nil =>
            by_cases hc : (db.users.filter (fun u => u = p || u = q)).length = 2
            · rw [resolveConversation_absent_dm_create hf hsp hc] at h
              obtain ⟨hdb, -⟩ := Prod.mk.inj (Except.ok.inj h)
              rw [← hdb]
            · rw [resolveConversation_absent_dm_missing_user hf hsp hc] at h
              exact absurd h (by simp)
          | cons r rs =>
            rw [resolveConversation_absent_dm_badsplit hf hsp (by simp)] at h
            exact absurd h (by simp)

/-- INSERT on an existing row: no-op success. -/
theorem hma_insert_exists {db : Db} {now : Int} {incoming : IncomingMessage}
    {dbMessage : CreateMessage}
    (hex : db.messages.any (fun m => m.id = incoming.id) = true) :
    handleMessageAction db now MessageAction.INSERT incoming dbMessage =
      Except.ok (db, []) := by
  simp only [handleMessageAction, hex, if_pos]

/-- INSERT on a fresh id: append the created row. -/
theorem hma_insert_fresh {db : Db} {now : Int} {incoming : IncomingMessage}
    {dbMessage : CreateMessage}
    (hex : db.messages.any (fun m => m.id = incoming.id) = false) :
    handleMessageAction db now MessageAction.INSERT incoming dbMessage =
      Except.ok ({ db with messages := db.messages ++ [rowOfCreate dbMessage] }, []) := by
  simp only [handleMessageAction, hex, Bool.false_eq_true, if_neg, not_false_eq_true]

/-- UPDATE on an existing row. -/
theorem hma_update_exists {db : Db} {now : Int} {incoming : IncomingMessage}
    {dbMessage : CreateMessage}
    (hex : db.messages.any (fun m => m.id = incoming.id) = true) :
    handleMessageAction db now MessageAction.UPDATE incoming dbMessage =
      Except.ok
        ({ db with
            messages := db.messages.map fun m =>
              if m.id = incoming.id then
                { m with
                    content := dbMessage.content
                    metadata := dbMessage.metadata
                    message := dbMessage.message
                    action := MessageAction.UPDATE }
              else m },
          []) := by
  simp only [handleMessageAction, hex, if_pos]

/-- UPDATE on a missing row throws. -/
theorem hma_update_missing {db : Db} {now : Int} {incoming : IncomingMessage}
    {dbMessage : CreateMessage}
    (hex : db.messages.any (fun m => m.id = incoming.id) = false) :
    handleMessageAction db now MessageAction.UPDATE incoming dbMessage =
      Except.error PersistError.recordNotFound := by
  simp only [handleMessageAction, hex, Bool.false_eq_true, if_neg, not_false_eq_true]

/-- DELETE on an existing row: soft delete plus silent notification. -/
theorem hma_delete_found {db : Db} {now : Int} {incoming : IncomingMessage}
    {dbMessage : CreateMessage} {target : StoredMessage}
    (hf : db.messages.find? (fun m => m.id = incoming.id) = some target) :
    handleMessageAction db now MessageAction.DELETE incoming dbMessage =
      Except.ok
        ({ db with
            messages := db.messages.map fun m =>
              if m.id = incoming.id then
                { m with deletedAt := some now, action := MessageAction.DELETE }
              else m },
          sendDeletedMessageNotification
            { db with
              messages := db.messages.map fun m =>
                if m.id = incoming.id then
                  { m with deletedAt := some now, action := MessageAction.DELETE }
                else m }
            target.conversationId target.senderId incoming.id) := by
  simp only [handleMessageAction, hf]

/-- DELETE on a missing row throws. -/
theorem hma_delete_missing {db : Db} {now : Int} {incoming : IncomingMessage}
    {dbMessage : CreateMessage}
    (hf : db.messages.find? (fun m => m.id = incoming.id) = none) :
    handleMessageAction db now MessageAction.DELETE incoming dbMessage =
      Except.error PersistError.recordNotFound := by
  simp only [handleMessageAction, hf]

/-- The persist step only rewrites the message table. -/
theorem handleMessageAction_frame {db db2 : Db} {now : Int} {a : MessageAction}
    {incoming : IncomingMessage} {dbMessage : CreateMessage} {es : List Emit}
    (h : handleMessageAction db now a incoming dbMessage = Except.ok (db2, es)) :
    db2.conversations = db.conversations ∧ db2.participants = db.participants
      ∧ db2.users = db.users ∧ db2.fcmTokens = db.fcmTokens := by
  cases a with
  | INSERT =>
    by_cases hex : db.messages.any (fun m => m.id = incoming.id) = true
    · rw [hma_insert_exists hex] at h
      obtain ⟨hdb, -⟩ := Prod.mk.inj (Except.ok.inj h)
      rw [← hdb]
      exact ⟨rfl, rfl, rfl, rfl⟩
    · rw [hma_insert_fresh (by simpa using hex)] at h
      obtain ⟨hdb, -⟩ := Prod.mk.inj (Except.ok.inj h)
      rw [← hdb]
      exact ⟨rfl, rfl, rfl, rfl⟩
  | UPDATE =>
    by_cases hex : db.messages.any (fun m => m.id = incoming.id) = true
    · rw [hma_update_exists hex] at h
      obtain ⟨hdb, -⟩ := Prod.mk.inj (Except.ok.inj h)
      rw [← hdb]
      exact ⟨rfl, rfl, rfl, rfl⟩
    · rw [hma_update_missing (by simpa using hex)] at h
      exact absurd h (by simp)
  | DELETE =>
    cases hf : db.messages.find? (fun m => m.id = incoming.id) with
    | none =>
      rw [hma_delete_missing hf] at h
      exact absurd h (by simp)
    | some target =>
      rw [hma_delete_found hf] at h
      obtain ⟨hdb, -⟩ := Prod.mk.inj (Except.ok.inj h)
      rw [← hdb]
      exact ⟨rfl, rfl, rfl, rfl⟩

/-- A successful persist leaves a row with the incoming id in the store. -/
theorem handleMessageAction_ok_id_present {db db2 : Db} {now : Int} {a : MessageAction}
    {incoming : IncomingMessage} {dbMessage : CreateMessage} {es : List Emit}
    (hid : dbMessage.id = incoming.id)
    (h : handleMessageAction db now a incoming dbMessage = Except.ok (db2, es)) :
    db2.messages.any (fun m => m.id = incoming.id) = true := by
  cases a with
  | INSERT =>
    by_cases hex : db.messages.any (fun m => m.id = incoming.id) = true
    · rw [hma_insert_exists hex] at h
      obtain ⟨hdb, -⟩ := Prod.mk.inj (Except.ok.inj h)
      rw [← hdb]; exact hex
    · rw [hma_insert_fresh (by simpa using hex)] at h
      obtain ⟨hdb, -⟩ := Prod.mk.inj (Except.ok.inj h)
      rw [← hdb]
      simp only [List.any_append]
      have hrow : (rowOfCreate dbMessage).id = incoming.id := by
        simp [rowOfCreate, hid]
      simp [hrow]
  | UPDATE =>
    by_cases hex : db.messages.any (fun m => m.id = incoming.id) = true
    · rw [hma_update_exists hex] at h
      obtain ⟨hdb, -⟩ := Prod.mk.inj (Except.ok.inj h)
      rw [← hdb]
      obtain ⟨x, hx, hxid⟩ := List.any_eq_true.mp hex
      refine List.any_eq_true.mpr ⟨_, List.mem_map.mpr ⟨x, hx, rfl⟩, ?_⟩
      simp only [decide_eq_true_eq] at hxid
      simp [hxid]
    · rw [hma_update_missing (by simpa using hex)] at h
      exact absurd h (by simp)
  | DELETE =>
    cases hf : db.messages.find? (fun m => m.id = incoming.id) with
    | none =>
      rw [hma_delete_missing hf] at h
      exact absurd h (by simp)
    | some target =>
      rw [hma_delete_found hf] at h
      obtain ⟨hdb, -⟩ := Prod.mk.inj (Except.ok.inj h)
      rw [← hdb]
      have hmem : target ∈ db.messages := List.mem_of_find?_eq_some hf
      have hpred := List.find?_some hf
      refine List.any_eq_true.mpr ⟨_, List.mem_map.mpr ⟨target, hmem, rfl⟩, ?_⟩
      simp only [decide_eq_true_eq] at hpred
      simp [hpred]

/-- A successful UPDATE requires the row to pre-exist. -/
theorem handleMessageAction_update_requires {db db2 : Db} {now : Int}
    {incoming : IncomingMessage} {dbMessage : CreateMessage} {es : List Emit}
    (h : handleMessageAction db now MessageAction.UPDATE incoming dbMessage =
      Except.ok (db2, es)) :
    db.messages.any (fun m => m.id = incoming.id) = true := by
  by_cases hex : db.messages.any (fun m => m.id = incoming.id) = true
  · exact hex
  · rw [hma_update_missing (by simpa using hex)] at h
    exact absurd h (by simp)

/-- The deleted-message notification emits no `message` or `err` events. -/
theorem sendDeletedMessageNotification_shape (db : Db) (cid sid mid : String) :
    ∀ e ∈ sendDeletedMessageNotification db cid sid mid,
      (∀ u p, e ≠ Emit.messageTo u p) ∧ (∀ msg, e ≠ Emit.errToSender msg) := by
  unfold sendDeletedMessageNotification
  by_cases hempty :
      (getRecipientTokens db
        (((db.participantsOf cid).filter (fun p => p.userId ≠ sid)).map
          (fun p => p.userId))).isEmpty = true
  · rw [if_pos hempty]; simp
  · rw [if_neg hempty]
    intro e he
    rw [List.mem_singleton] at he
    subst he
    exact ⟨fun u p h => by simp at h, fun msg h => by simp at h⟩

/-- The new-message notification emits no `message` or `err` events. -/
theorem sendNewMessageNotification_shape (db : Db) (participants : List Participant)
    (sid : String) (sname : Option String) (msg : CreateMessage) :
    ∀ e ∈ sendNewMessageNotification db participants sid sname msg,
      (∀ u p, e ≠ Emit.messageTo u p) ∧ (∀ m, e ≠ Emit.errToSender m) := by
  unfold sendNewMessageNotification
  by_cases hempty :
      (getRecipientTokens db
        ((participants.filter (fun p => p.userId ≠ sid)).map (fun p => p.userId))).isEmpty
        = true
  · rw [if_pos hempty]; simp
  · rw [if_neg hempty]
    intro e he
    rw [List.mem_singleton] at he
    subst he
    exact ⟨fun u p h => by simp at h, fun m h => by simp at h⟩

/-- The persist step emits no `message` or `err` events. -/
theorem handleMessageAction_emits_shape {db db2 : Db} {now : Int} {a : MessageAction}
    {incoming : IncomingMessage} {dbMessage : CreateMessage} {es : List Emit}
    (h : handleMessageAction db now a incoming dbMessage = Except.ok (db2, es)) :
    ∀ e ∈ es, (∀ u p, e ≠ Emit.messageTo u p) ∧ (∀ m, e ≠ Emit.errToSender m) := by
  cases a with
  | INSERT =>
    by_cases hex : db.messages.any (fun m => m.id = incoming.id) = true
    · rw [hma_insert_exists hex] at h
      obtain ⟨-, hes⟩ := Prod.mk.inj (Except.ok.inj h)
      rw [← hes]; simp
    · rw [hma_insert_fresh (by simpa using hex)] at h
      obtain ⟨-, hes⟩ := Prod.mk.inj (Except.ok.inj h)
      rw [← hes]; simp
  | UPDATE =>
    by_cases hex : db.messages.any (fun m => m.id = incoming.id) = true
    · rw [hma_update_exists hex] at h
      obtain ⟨-, hes⟩ := Prod.mk.inj (Except.ok.inj h)
      rw [← hes]; simp
    · rw [hma_update_missing (by simpa using hex)] at h
      exact absurd h (by simp)
  | DELETE =>
    cases hf : db.messages.find? (fun m => m.id = incoming.id) with
    | none =>
      rw [hma_delete_missing hf] at h
      exact absurd h (by simp)
    | some target =>
      rw [hma_delete_found hf] at h
      obtain ⟨-, hes⟩ := Prod.mk.inj (Except.ok.inj h)
      rw [← hes]
      exact sendDeletedMessageNotification_shape _ _ _ _

/-! ### Branch evaluation of `handleMessage` -/

theorem handleMessage_impersonation {db : Db} {now : Int} {user : SessionUser}
    {payload : IncomingMessage} (hne : user.id ≠ payload.senderId) :
    handleMessage db now user payload =
      (db, [Emit.errToSender "Please user the senderID of the logged in User"]) := by
  simp only [handleMessage, if_pos hne]

theorem handleMessage_dm_invalid {db : Db} {now : Int} {user : SessionUser}
    {payload : IncomingMessage} (hauth : user.id = payload.senderId)
    (hdm : (isDMConversationId payload.conversationId &&
      !((jsSplit '_' payload.conversationId).contains payload.senderId)) = true) :
    handleMessage db now user payload =
      (db, [Emit.errToSender "Invalid DM conversation: sender is not a participant"]) := by
  simp only [handleMessage, hauth, hdm]
  simp

theorem handleMessage_resolve_error {db : Db} {now : Int} {user : SessionUser}
    {payload : IncomingMessage} {es : List Emit}
    (hauth : user.id = payload.senderId)
    (hdm : (isDMConversationId payload.conversationId &&
      !((jsSplit '_' payload.conversationId).contains payload.senderId)) = false)
    (hres : resolveConversation db payload.conversationId
        (isDMConversationId payload.conversationId) = Except.error es) :
    handleMessage db now user payload = (db, es) := by
  simp only [handleMessage, hauth, hdm, hres]
  simp

theorem handleMessage_not_member {db db1 : Db} {now : Int} {user : SessionUser}
    {payload : IncomingMessage} {participants : List Participant}
    (hauth : user.id = payload.senderId)
    (hdm : (isDMConversationId payload.conversationId &&
      !((jsSplit '_' payload.conversationId).contains payload.senderId)) = false)
    (hres : resolveConversation db payload.conversationId
        (isDMConversationId payload.conversationId) = Except.ok (db1, participants))
    (hmem : participants.any (fun p => p.userId = payload.senderId) = false) :
    handleMessage db now user payload =
      (db1, [Emit.errToSender "User is not a member of the group"]) := by
  simp only [handleMessage, hauth, hdm, hres, hmem]
  simp

theorem handleMessage_persist_error {db db1 : Db} {now : Int} {user : SessionUser}
    {payload : IncomingMessage} {participants : List Participant} {e : PersistError}
    (hauth : user.id = payload.senderId)
    (hdm : (isDMConversationId payload.conversationId &&
      !((jsSplit '_' payload.conversationId).contains payload.senderId)) = false)
    (hres : resolveConversation db payload.conversationId
        (isDMConversationId payload.conversationId) = Except.ok (db1, participants))
    (hmem : participants.any (fun p => p.userId = payload.senderId) = true)
    (haction : handleMessageAction db1 now payload.action payload
        (createMessageOf payload) = Except.error e) :
    handleMessage db now user payload = (db1, []) := by
  simp only [handleMessage, hauth, hdm, hres, hmem, haction]
  simp

theorem handleMessage_success {db db1 db2 : Db} {now : Int} {user : SessionUser}
    {payload : IncomingMessage} {participants : List Participant}
    {actionEmits : List Emit}
    (hauth : user.id = payload.senderId)
    (hdm : (isDMConversationId payload.conversationId &&
      !((jsSplit '_' payload.conversationId).contains payload.senderId)) = false)
    (hres : resolveConversation db payload.conversationId
        (isDMConversationId payload.conversationId) = Except.ok (db1, participants))
    (hmem : participants.any (fun p => p.userId = payload.senderId) = true)
    (haction : handleMessageAction db1 now payload.action payload
        (createMessageOf payload) = Except.ok (db2, actionEmits)) :
    handleMessage db now user payload =
      (db2,
        actionEmits ++ participants.map (fun p => Emit.messageTo p.userId payload) ++
          sendNewMessageNotification db2 participants user.id user.name
            (createMessageOf payload)) := by
  simp only [handleMessage, hauth, hdm, hres, hmem, haction]
  simp [hauth]

/-! ## C2: broadcast only after successful persistence -/

/-- C2: a `message` event reaches a participant only when the persist
step has succeeded — witnessed by the persisted row being present in
the final store — and when the persist step throws (here: an UPDATE of
a missing id), no participant receives any `message` event. -/
theorem claim_C2_broadcast_after_commit :
    (∀ (db : Db) (now : Int) (user : SessionUser) (payload : IncomingMessage)
        (u : String) (p : IncomingMessage),
        Emit.messageTo u p ∈ (handleMessage db now user payload).2 →
        (handleMessage db now user payload).1.messages.any
          (fun m => m.id = payload.id) = true)
    ∧ (∀ (db : Db) (now : Int) (user : SessionUser) (payload : IncomingMessage),
        payload.action = MessageAction.UPDATE →
        db.messages.any (fun m => m.id = payload.id) = false →
        ∀ (u : String) (p : IncomingMessage),
          Emit.messageTo u p ∉ (handleMessage db now user payload).2) := by
  constructor
  · intro db now user payload u p hmem
    by_cases hauth : user.id = payload.senderId
    case neg =>
      rw [handleMessage_impersonation hauth] at hmem
      simp at hmem
    by_cases hdm : (isDMConversationId payload.conversationId &&
        !((jsSplit '_' payload.conversationId).contains payload.senderId)) = true
    case pos =>
      rw [handleMessage_dm_invalid hauth hdm] at hmem
      simp at hmem
    have hdmF : (isDMConversationId payload.conversationId &&
        !((jsSplit '_' payload.conversationId).contains payload.senderId)) = false := by
      simpa using hdm
    cases hres : resolveConversation db payload.conversationId
        (isDMConversationId payload.conversationId) with
    | error es =>
      rw [handleMessage_resolve_error hauth hdmF hres] at hmem
      obtain ⟨msg, rfl⟩ := resolveConversation_error_shape hres
      simp at hmem
    | ok pr =>
      obtain ⟨db1, participants⟩ := pr
      by_cases hmemb : participants.any (fun q => q.userId = payload.senderId) = true
      case neg =>
        rw [handleMessage_not_member hauth hdmF hres (by simpa using hmemb)] at hmem
        simp at hmem
      cases haction : handleMessageAction db1 now payload.action payload
          (createMessageOf payload) with
      | error e =>
        rw [handleMessage_persist_error hauth hdmF hres hmemb haction] at hmem
        simp at hmem
      | ok pr2 =>
        obtain ⟨db2, aes⟩ := pr2
        rw [handleMessage_success hauth hdmF hres hmemb haction]
        exact handleMessageAction_ok_id_present rfl haction
  · intro db now user payload hact hmissing u p hmem
    by_cases hauth : user.id = payload.senderId
    case neg =>
      rw [handleMessage_impersonation hauth] at hmem
      simp at hmem
    by_cases hdm : (isDMConversationId payload.conversationId &&
        !((jsSplit '_' payload.conversationId).contains payload.senderId)) = true
    case pos =>
      rw [handleMessage_dm_invalid hauth hdm] at hmem
      simp at hmem
    have hdmF : (isDMConversationId payload.conversationId &&
        !((jsSplit '_' payload.conversationId).contains payload.senderId)) = false := by
      simpa using hdm
    cases hres : resolveConversation db payload.conversationId
        (isDMConversationId payload.conversationId) with
    | error es =>
      rw [handleMessage_resolve_error hauth hdmF hres] at hmem
      obtain ⟨msg, rfl⟩ := resolveConversation_error_shape hres
      simp at hmem
    | ok pr =>
      obtain ⟨db1, participants⟩ := pr
      by_cases hmemb : participants.any (fun q => q.userId = payload.senderId) = true
      case neg =>
        rw [handleMessage_not_member hauth hdmF hres (by simpa using hmemb)] at hmem
        simp at hmem
      cases haction : handleMessageAction db1 now payload.action payload
          (createMessageOf payload) with
      | error e =>
        rw [handleMessage_persist_error hauth hdmF hres hmemb haction] at hmem
        simp at hmem
      | ok pr2 =>
        obtain ⟨db2, aes⟩ := pr2
        rw [hact] at haction
        have hreq := handleMessageAction_update_requires haction
        rw [resolveConversation_messages hres] at hreq
        rw [hreq] at hmissing
        exact absurd hmissing (by simp)

/-- C2 witness: a concrete successful send (INSERT into an existing
group) whose broadcast implies the row is stored; and the failing
UPDATE side at a concrete missing id. -/
theorem claim_C2_broadcast_after_commit_witness :
    ((handleMessage
        ⟨["amy", "bob"], [⟨"g1", true⟩], [⟨"amy", "g1", 0⟩, ⟨"bob", "g1", 0⟩], [], []⟩
        5 ⟨"amy", some "Amy"⟩
        ⟨"m1", "g1", "amy", 5, "TEXT", some "c", none, some "hi", none,
          MessageAction.INSERT⟩).1.messages.any (fun m => m.id = "m1") = true)
    ∧ (Emit.messageTo "bob"
        ⟨"mX", "g1", "amy", 5, "TEXT", some "c", none, some "hi", none,
          MessageAction.UPDATE⟩ ∉
        (handleMessage
          ⟨["amy", "bob"], [⟨"g1", true⟩], [⟨"amy", "g1", 0⟩, ⟨"bob", "g1", 0⟩], [], []⟩
          5 ⟨"amy", some "Amy"⟩
          ⟨"mX", "g1", "amy", 5, "TEXT", some "c", none, some "hi", none,
            MessageAction.UPDATE⟩).2) := by
  constructor
  · exact claim_C2_broadcast_after_commit.1 _ 5 _ _ "amy"
      ⟨"m1", "g1", "amy", 5, "TEXT", some "c", none, some "hi", none,
        MessageAction.INSERT⟩ (by decide)
  · exact claim_C2_broadcast_after_commit.2 _ 5 _ _ (by decide) (by decide) "bob" _

/-! ## C5: error rendering for non-members vs missing conversations -/

/-- C5 counterexample: at concrete inputs, a non-member of an existing
conversation is answered with `err` message
"User is not a member of the group", while the same envelope against an
absent conversation is answered with "Conversation not found" — two
different renderings, so existence is revealed, contradicting the
claim that both are surfaced identically. -/
theorem claim_C5_counterexample :
    (handleMessage ⟨["amy", "bob"], [⟨"g1", true⟩], [⟨"bob", "g1", 0⟩], [], []⟩ 0
        ⟨"amy", none⟩
        ⟨"m1", "g1", "amy", 0, "TEXT", some "c", none, some "hi", none,
          MessageAction.INSERT⟩).2 =
      [Emit.errToSender "User is not a member of the group"]
    ∧ (handleMessage ⟨["amy", "bob"], [], [], [], []⟩ 0 ⟨"amy", none⟩
        ⟨"m1", "g1", "amy", 0, "TEXT", some "c", none, some "hi", none,
          MessageAction.INSERT⟩).2 =
      [Emit.errToSender "Conversation not found"]
    ∧ "User is not a member of the group" ≠ "Conversation not found" := by
  refine ⟨?_, ?_, by decide⟩ <;> decide

/-- C5 (amended): a sender who is not a participant of an *existing*
conversation receives the error string
"User is not a member of the group", whereas an absent conversation
yields "Conversation not found"; the two renderings differ, so the
protocol boundary does reveal whether the conversation exists. -/
theorem claim_C5_amended_error_rendering :
    (∀ (db : Db) (now : Int) (user : SessionUser) (payload : IncomingMessage)
        (conv : Conversation),
        user.id = payload.senderId →
        (isDMConversationId payload.conversationId &&
          !((jsSplit '_' payload.conversationId).contains payload.senderId)) = false →
        db.findConversation payload.conversationId = some conv →
        (db.participantsOf payload.conversationId).any
          (fun p => p.userId = payload.senderId) = false →
        handleMessage db now user payload =
          (db, [Emit.errToSender "User is not a member of the group"]))
    ∧ (∀ (db : Db) (now : Int) (user : SessionUser) (payload : IncomingMessage),
        user.id = payload.senderId →
        isDMConversationId payload.conversationId = false →
        db.findConversation payload.conversationId = none →
        handleMessage db now user payload =
          (db, [Emit.errToSender "Conversation not found"]))
    ∧ "User is not a member of the group" ≠ "Conversation not found" := by
  refine ⟨fun db now user payload conv hauth hdmF hfound hnot => ?_,
    fun db now user payload hauth hnotdm habsent => ?_, by decide⟩
  · exact handleMessage_not_member hauth hdmF (resolveConversation_found hfound) hnot
  · have hdmF : (isDMConversationId payload.conversationId &&
        !((jsSplit '_' payload.conversationId).contains payload.senderId)) = false := by
      rw [hnotdm]; rfl
    have hres : resolveConversation db payload.conversationId
        (isDMConversationId payload.conversationId) =
        Except.error [Emit.errToSender "Conversation not found"] := by
      rw [hnotdm]
      exact resolveConversation_absent_group habsent
    exact handleMessage_resolve_error hauth hdmF hres

/-- C5 amended witness: both branches applied at concrete inputs. -/
theorem claim_C5_amended_error_rendering_witness :
    handleMessage ⟨["amy", "bob"], [⟨"g1", true⟩], [⟨"bob", "g1", 0⟩], [], []⟩ 3
        ⟨"amy", none⟩
        ⟨"m2", "g1", "amy", 3, "TEXT", some "c", none, some "hi", none,
          MessageAction.INSERT⟩ =
      (⟨["amy", "bob"], [⟨"g1", true⟩], [⟨"bob", "g1", 0⟩], [], []⟩,
        [Emit.errToSender "User is not a member of the group"])
    ∧ handleMessage ⟨["amy", "bob"], [], [], [], []⟩ 3 ⟨"amy", none⟩
        ⟨"m2", "g1", "amy", 3, "TEXT", some "c", none, some "hi", none,
          MessageAction.INSERT⟩ =
      (⟨["amy", "bob"], [], [], [], []⟩,
        [Emit.errToSender "Conversation not found"]) :=
  ⟨claim_C5_amended_error_rendering.1 _ 3 _ _ ⟨"g1", true⟩ (by decide) (by decide)
      (by decide) (by decide),
    claim_C5_amended_error_rendering.2.1 _ 3 _ _ (by decide) (by decide) (by decide)⟩

/-! ## C7: which actions trigger a push notification -/

/-- C7 counterexample: a successfully persisted UPDATE *does* dispatch
the new-message push notification (the gateway calls
`sendNewMessageNotification` unconditionally after the persist step),
contradicting the claim that only INSERT and DELETE notify. -/
theorem claim_C7_counterexample :
    (⟨"m1", "g1", "amy", 9, "TEXT", some "c", none, some "edited", none,
        MessageAction.UPDATE⟩ : IncomingMessage).action = MessageAction.UPDATE
    ∧ Emit.notify ["tok"] "Amy" "edited" "g1" "m1" ∈
        (handleMessage
          ⟨["amy", "bob"], [⟨"g1", true⟩], [⟨"amy", "g1", 0⟩, ⟨"bob", "g1", 0⟩],
            [⟨"m1", 7, "TEXT", some "c0", none, some "hello", MessageAction.INSERT,
              "amy", "g1", none, none⟩],
            [("bob", "tok")]⟩
          9 ⟨"amy", some "Amy"⟩
          ⟨"m1", "g1", "amy", 9, "TEXT", some "c", none, some "edited", none,
            MessageAction.UPDATE⟩).2 := by
  refine ⟨rfl, ?_⟩
  decide

/-- C7 (amended): after any successfully persisted send_message —
INSERT, UPDATE or DELETE alike — the new-message push notification is
dispatched to the recipients (participants minus the sender) whenever
they have registered tokens; DELETE additionally dispatches a silent
deletion notification from within the persist step.  In particular
UPDATE does trigger a notification. -/
theorem claim_C7_amended_notification_every_action
    (db db2 : Db) (now : Int) (user : SessionUser) (payload : IncomingMessage)
    (conv : Conversation) (actionEmits : List Emit)
    (hauth : user.id = payload.senderId)
    (hdmF : (isDMConversationId payload.conversationId &&
      !((jsSplit '_' payload.conversationId).contains payload.senderId)) = false)
    (hfound : db.findConversation payload.conversationId = some conv)
    (hmem : (db.participantsOf payload.conversationId).any
      (fun p => p.userId = payload.senderId) = true)
    (haction : handleMessageAction db now payload.action payload
      (createMessageOf payload) = Except.ok (db2, actionEmits))
    (hne : (getRecipientTokens db2
        (((db.participantsOf payload.conversationId).filter
          (fun p => p.userId ≠ user.id)).map (fun p => p.userId))).isEmpty = false) :
    Emit.notify
        (getRecipientTokens db2
          (((db.participantsOf payload.conversationId).filter
            (fun p => p.userId ≠ user.id)).map (fun p => p.userId)))
        (user.name.getD "New Message") (notificationBody (createMessageOf payload))
        payload.conversationId payload.id ∈
      (handleMessage db now user payload).2 := by
  rw [handleMessage_success hauth hdmF (resolveConversation_found hfound) hmem haction]
  have hsend : sendNewMessageNotification db2 (db.participantsOf payload.conversationId)
      user.id user.name (createMessageOf payload) =
      [Emit.notify
        (getRecipientTokens db2
          (((db.participantsOf payload.conversationId).filter
            (fun p => p.userId ≠ user.id)).map (fun p => p.userId)))
        (user.name.getD "New Message") (notificationBody (createMessageOf payload))
        payload.conversationId payload.id] := by
    simp only [sendNewMessageNotification]
    rw [if_neg (by rw [hne]; simp)]
    rfl
  refine List.mem_append.mpr (Or.inr ?_)
  rw [hsend]
  exact List.mem_singleton.mpr rfl

/-- C7 amended witness: the UPDATE case at a concrete store where the
recipient has a registered token. -/
theorem claim_C7_amended_notification_every_action_witness :
    Emit.notify ["tok"] "Amy" "edited2" "g1" "m1" ∈
      (handleMessage
        ⟨["amy", "bob"], [⟨"g1", true⟩], [⟨"amy", "g1", 0⟩, ⟨"bob", "g1", 0⟩],
          [⟨"m1", 7, "TEXT", some "c0", none, some "hello", MessageAction.INSERT,
            "amy", "g1", none, none⟩],
          [("bob", "tok")]⟩
        9 ⟨"amy", some "Amy"⟩
        ⟨"m1", "g1", "amy", 9, "TEXT", some "c", none, some "edited2", none,
          MessageAction.UPDATE⟩).2 := by
  exact claim_C7_amended_notification_every_action
    ⟨["amy", "bob"], [⟨"g1", true⟩], [⟨"amy", "g1", 0⟩, ⟨"bob", "g1", 0⟩],
      [⟨"m1", 7, "TEXT", some "c0", none, some "hello", MessageAction.INSERT,
        "amy", "g1", none, none⟩],
      [("bob", "tok")]⟩
    ⟨["amy", "bob"], [⟨"g1", true⟩], [⟨"amy", "g1", 0⟩, ⟨"bob", "g1", 0⟩],
      [⟨"m1", 7, "TEXT", some "c", none, some "edited2", MessageAction.UPDATE,
        "amy", "g1", none, none⟩],
      [("bob", "tok")]⟩
    9 ⟨"amy", some "Amy"⟩
    ⟨"m1", "g1", "amy", 9, "TEXT", some "c", none, some "edited2", none,
      MessageAction.UPDATE⟩
    ⟨"g1", true⟩ [] (by decide) (by decide) (by decide) (by decide) (by rfl)
    (by decide)

/-! ## C8: exception handling in the pipeline -/

/-- C8 counterexample: an UPDATE of a non-existent message id is
swallowed — the run returns with the store unchanged and an *empty*
emission list, so no `err` payload reaches the sender, contradicting
the claim that the failure is surfaced to the sender. -/
theorem claim_C8_counterexample :
    handleMessage
        ⟨["amy", "bob"], [⟨"g1", true⟩], [⟨"amy", "g1", 0⟩, ⟨"bob", "g1", 0⟩], [],
          [("bob", "tok")]⟩
        5 ⟨"amy", some "Amy"⟩
        ⟨"mX", "g1", "amy", 5, "TEXT", some "c", none, some "edit", none,
          MessageAction.UPDATE⟩ =
      (⟨["amy", "bob"], [⟨"g1", true⟩], [⟨"amy", "g1", 0⟩, ⟨"bob", "g1", 0⟩], [],
        [("bob", "tok")]⟩, []) := by
  decide

/-- C8 (amended): an exception thrown by the persist step is caught by
the handler (the run terminates normally, so the connection survives),
no row is created and nothing further happens — but the catch block
only logs, so *no* `err` payload is emitted to the sender; in
particular an UPDATE of a non-existent id returns the store unchanged
with an empty emission list. -/
theorem claim_C8_amended_swallowed_persist_error
    (db : Db) (now : Int) (user : SessionUser) (payload : IncomingMessage)
    (conv : Conversation)
    (hauth : user.id = payload.senderId)
    (hdmF : (isDMConversationId payload.conversationId &&
      !((jsSplit '_' payload.conversationId).contains payload.senderId)) = false)
    (hfound : db.findConversation payload.conversationId = some conv)
    (hmem : (db.participantsOf payload.conversationId).any
      (fun p => p.userId = payload.senderId) = true)
    (hact : payload.action = MessageAction.UPDATE)
    (hmissing : db.messages.any (fun m => m.id = payload.id) = false) :
    handleMessage db now user payload = (db, []) := by
  have haction : handleMessageAction db now payload.action payload
      (createMessageOf payload) = Except.error PersistError.recordNotFound := by
    rw [hact]
    exact hma_update_missing hmissing
  exact handleMessage_persist_error hauth hdmF (resolveConversation_found hfound)
    hmem haction

/-- C8 amended witness: the amended statement applied at the concrete
missing-id UPDATE. -/
theorem claim_C8_amended_swallowed_persist_error_witness :
    handleMessage
        ⟨["amy", "bob"], [⟨"g1", true⟩], [⟨"amy", "g1", 0⟩, ⟨"bob", "g1", 0⟩], [],
          [("bob", "tok")]⟩
        6 ⟨"amy", some "Amy"⟩
        ⟨"mY", "g1", "amy", 6, "TEXT", some "c", none, some "edit", none,
          MessageAction.UPDATE⟩ =
      (⟨["amy", "bob"], [⟨"g1", true⟩], [⟨"amy", "g1", 0⟩, ⟨"bob", "g1", 0⟩], [],
        [("bob", "tok")]⟩, []) :=
  claim_C8_amended_swallowed_persist_error _ 6 _ _ ⟨"g1", true⟩ (by decide)
    (by decide) (by decide) (by decide) (by decide) (by decide)

/-! ## C3: lazy DM conversation creation -/

theorem isDM_of_jsSplit_pair {s : String} {a b : String}
    (hsp : jsSplit '_' s = [a, b]) :
    isDMConversationId s = (a.length > 0 && b.length > 0 && jsLt a b) := by
  unfold isDMConversationId
  rw [hsp]

theorem jsLt_ne {a b : String} (h : jsLt a b = true) : a ≠ b := by
  intro heq
  subst heq
  unfold jsLt at h
  rw [charListLt_irrefl] at h
  exact absurd h (by simp)

/-- Embeds the user-count query with an id-in-list clause over a duplicate-free
user table counts each present user once. -/
theorem count_pair (l : List String) (u1 u2 : String) (hnd : l.Nodup)
    (hne : u1 ≠ u2) :
    (l.filter (fun u => u = u1 || u = u2)).length =
      (if u1 ∈ l then 1 else 0) + (if u2 ∈ l then 1 else 0) := by
  induction l with
  | nil => simp
  | cons x xs ih =>
    rw [List.nodup_cons] at hnd
    obtain ⟨hxmem, hxs⟩ := hnd
    have ih' := ih hxs
    by_cases h1 : x = u1
    · have hn1 : u1 ∉ xs := by rw [← h1]; exact hxmem
      have hn2x : u2 ≠ x := fun h => hne ((h.trans h1).symm)
      have hmem1 : u1 ∈ x :: xs := List.mem_cons.mpr (Or.inl h1.symm)
      by_cases hc : u2 ∈ xs
      · rw [List.filter_cons_of_pos (by simp [h1]), List.length_cons, ih',
          if_neg hn1, if_pos hc, if_pos hmem1,
          if_pos (show u2 ∈ x :: xs from List.mem_cons.mpr (Or.inr hc))]
      · rw [List.filter_cons_of_pos (by simp [h1]), List.length_cons, ih',
          if_neg hn1, if_neg hc, if_pos hmem1,
          if_neg (show u2 ∉ x :: xs from fun h =>
            ((List.mem_cons.mp h).elim (fun he => hn2x he) hc))]
    · by_cases h2 : x = u2
      · have hn2 : u2 ∉ xs := by rw [← h2]; exact hxmem
        have hn1x : u1 ≠ x := fun h => hne (h.trans h2)
        have hmem2 : u2 ∈ x :: xs := List.mem_cons.mpr (Or.inl h2.symm)
        by_cases hc : u1 ∈ xs
        · rw [List.filter_cons_of_pos (by simp [h2]), List.length_cons, ih',
            if_pos hc, if_neg hn2, if_pos hmem2,
            if_pos (show u1 ∈ x :: xs from List.mem_cons.mpr (Or.inr hc))]
        · rw [List.filter_cons_of_pos (by simp [h2]), List.length_cons, ih',
            if_neg hc, if_neg hn2, if_pos hmem2,
            if_neg (show u1 ∉ x :: xs from fun h =>
              ((List.mem_cons.mp h).elim (fun he => hn1x he) hc))]
      · rw [List.filter_cons_of_neg (by simp [h1, h2])]
        have hm1 : (u1 ∈ x :: xs) = (u1 ∈ xs) :=
          propext ⟨fun h => (List.mem_cons.mp h).resolve_left (fun he => h1 he.symm),
            fun h => List.mem_cons.mpr (Or.inr h)⟩
        have hm2 : (u2 ∈ x :: xs) = (u2 ∈ xs) :=
          propext ⟨fun h => (List.mem_cons.mp h).resolve_left (fun he => h2 he.symm),
            fun h => List.mem_cons.mpr (Or.inr h)⟩
        rw [ih']
        simp only [hm1, hm2]

/-- C3: for a DM-shaped conversation id whose sender is one of the two
components and which does not exist yet: if either referenced user is
missing, the run fails with the users-not-found error and changes
nothing; if both exist, the conversation is created with
`isGroup = false` and exactly the two participant rows (one per
component user), both with `lastReadAt` equal to the epoch (0), not the
current time. -/
theorem claim_C3_dm_autocreation
    (db : Db) (now : Int) (user : SessionUser) (payload : IncomingMessage)
    (u1 u2 : String)
    (hauth : user.id = payload.senderId)
    (hDM : isDMConversationId payload.conversationId = true)
    (hsplit : jsSplit '_' payload.conversationId = [u1, u2])
    (hsender : payload.senderId = u1 ∨ payload.senderId = u2)
    (habsent : db.findConversation payload.conversationId = none)
    (hnodup : db.users.Nodup) :
    ((u1 ∉ db.users ∨ u2 ∉ db.users) →
      handleMessage db now user payload =
        (db, [Emit.errToSender "One or both users do not exist"]))
    ∧ (u1 ∈ db.users → u2 ∈ db.users →
        (∀ p ∈ db.participants, p.conversationId ≠ payload.conversationId) →
        (⟨payload.conversationId, false⟩ : Conversation) ∈
            (handleMessage db now user payload).1.conversations
          ∧ (handleMessage db now user payload).1.participantsOf
              payload.conversationId =
            [⟨u1, payload.conversationId, 0⟩, ⟨u2, payload.conversationId, 0⟩]) := by
  have hcontains : ((jsSplit '_' payload.conversationId).contains payload.senderId)
      = true := by
    rw [hsplit]
    rcases hsender with h | h <;> simp [h]
  have hdmF : (isDMConversationId payload.conversationId &&
      !((jsSplit '_' payload.conversationId).contains payload.senderId)) = false := by
    rw [hDM, hcontains]
    rfl
  have hne12 : u1 ≠ u2 := by
    have hval := (isDM_of_jsSplit_pair hsplit).symm.trans hDM
    simp only [Bool.and_eq_true] at hval
    exact jsLt_ne hval.2
  constructor
  · intro hmiss
    have hcount : (db.users.filter (fun u => u = u1 || u = u2)).length ≠ 2 := by
      rw [count_pair db.users u1 u2 hnodup hne12]
      rcases hmiss with h | h
      · rw [if_neg h]
        by_cases h2 : u2 ∈ db.users
        · rw [if_pos h2]; omega
        · rw [if_neg h2]; omega
      · rw [if_neg h]
        by_cases h2 : u1 ∈ db.users
        · rw [if_pos h2]; omega
        · rw [if_neg h2]; omega
    have hres : resolveConversation db payload.conversationId
        (isDMConversationId payload.conversationId) =
        Except.error [Emit.errToSender "One or both users do not exist"] := by
      rw [hDM]
      exact resolveConversation_absent_dm_missing_user habsent hsplit hcount
    exact handleMessage_resolve_error hauth hdmF hres
  · intro hu1 hu2 horphan
    have hcount : (db.users.filter (fun u => u = u1 || u = u2)).length = 2 := by
      rw [count_pair db.users u1 u2 hnodup hne12, if_pos hu1, if_pos hu2]
    have hres : resolveConversation db payload.conversationId
        (isDMConversationId payload.conversationId) =
        Except.ok
          ({ db with
              conversations := db.conversations ++ [⟨payload.conversationId, false⟩],
              participants := db.participants ++
                [⟨u1, payload.conversationId, 0⟩,
                  ⟨u2, payload.conversationId, 0⟩] },
            [⟨u1, payload.conversationId, 0⟩, ⟨u2, payload.conversationId, 0⟩]) := by
      rw [hDM]
      exact resolveConversation_absent_dm_create habsent hsplit hcount
    have hmemb : ([⟨u1, payload.conversationId, 0⟩,
        ⟨u2, payload.conversationId, 0⟩] : List Participant).any
        (fun p => p.userId = payload.senderId) = true := by
      rcases hsender with h | h <;> simp [h]
    have hfilter : (db.participants ++
        ([⟨u1, payload.conversationId, 0⟩,
          ⟨u2, payload.conversationId, 0⟩] : List Participant)).filter
        (fun p => p.conversationId = payload.conversationId) =
        [⟨u1, payload.conversationId, 0⟩, ⟨u2, payload.conversationId, 0⟩] := by
      rw [List.filter_append]
      have h0 : db.participants.filter
          (fun p => p.conversationId = payload.conversationId) = [] := by
        rw [List.filter_eq_nil_iff]
        intro p hp
        simp only [decide_eq_true_eq]
        exact horphan p hp
      rw [h0]
      simp
    cases haction : handleMessageAction
        { db with
          conversations := db.conversations ++ [⟨payload.conversationId, false⟩],
          participants := db.participants ++
            [⟨u1, payload.conversationId, 0⟩, ⟨u2, payload.conversationId, 0⟩] }
        now payload.action payload (createMessageOf payload) with
    | error e =>
      rw [handleMessage_persist_error hauth hdmF hres hmemb haction]
      constructor
      · exact List.mem_append_right _ (List.mem_singleton.mpr rfl)
      · exact hfilter
    | ok pr =>
      obtain ⟨db2, aes⟩ := pr
      rw [handleMessage_success hauth hdmF hres hmemb haction]
      obtain ⟨hconv2, hpart2, -, -⟩ := handleMessageAction_frame haction
      constructor
      · rw [hconv2]
        exact List.mem_append_right _ (List.mem_singleton.mpr rfl)
      · unfold Db.participantsOf
        rw [hpart2]
        exact hfilter

/-- C3 witness: `amy` opens the DM `amy_bob`; with `bob` missing the
run errors and creates nothing; with both users present the
conversation is created with the two epoch participant rows. -/
theorem claim_C3_dm_autocreation_witness :
    handleMessage ⟨["amy"], [], [], [], []⟩ 4 ⟨"amy", none⟩
        ⟨"m1", "amy_bob", "amy", 4, "TEXT", some "c", none, some "hi", none,
          MessageAction.INSERT⟩ =
      (⟨["amy"], [], [], [], []⟩,
        [Emit.errToSender "One or both users do not exist"])
    ∧ ((⟨"amy_bob", false⟩ : Conversation) ∈
        (handleMessage ⟨["amy", "bob"], [], [], [], []⟩ 4 ⟨"amy", none⟩
          ⟨"m1", "amy_bob", "amy", 4, "TEXT", some "c", none, some "hi", none,
            MessageAction.INSERT⟩).1.conversations
      ∧ (handleMessage ⟨["amy", "bob"], [], [], [], []⟩ 4 ⟨"amy", none⟩
          ⟨"m1", "amy_bob", "amy", 4, "TEXT", some "c", none, some "hi", none,
            MessageAction.INSERT⟩).1.participantsOf "amy_bob" =
          [⟨"amy", "amy_bob", 0⟩, ⟨"bob", "amy_bob", 0⟩]) := by
  refine ⟨?_, ?_⟩
  · exact (claim_C3_dm_autocreation ⟨["amy"], [], [], [], []⟩ 4 ⟨"amy", none⟩
      ⟨"m1", "amy_bob", "amy", 4, "TEXT", some "c", none, some "hi", none,
        MessageAction.INSERT⟩ "amy" "bob" (by decide) (by decide) (by decide)
      (Or.inl rfl) (by decide) (by decide)).1 (Or.inr (by decide))
  · exact (claim_C3_dm_autocreation ⟨["amy", "bob"], [], [], [], []⟩ 4 ⟨"amy", none⟩
      ⟨"m1", "amy_bob", "amy", 4, "TEXT", some "c", none, some "hi", none,
        MessageAction.INSERT⟩ "amy" "bob" (by decide) (by decide) (by decide)
      (Or.inl rfl) (by decide) (by decide)).2 (by decide) (by decide) (by decide)

end SyncSphere
